import Mathlib

/-!
Verification of the gitrewrite history-rewrite engine against its
natural-language specification.

The Go sources are shallowly embedded: pure string manipulation becomes
Lean functions on `String` (Go byte strings are modelled at character
granularity, an abstraction that is exact on ASCII data), subprocess and
go-git calls become explicit oracle parameters recording each call's
outcome, and the dry-run batch loop becomes a fold over an explicit
state carrying the decision list, the processed-commit counter and an
event trace.
-/

namespace GitRewrite

/-- Byte-slice prefix `s[:n]` from Go, modelled on the character list. -/
def goTake (s : String) (n : Nat) : String :=
  ⟨s.data.take n⟩

/-- Occurrence check of a pattern at successive positions of a list. -/
def containsAux (pat : List Char) : List Char → Bool
  | [] => pat.isEmpty
  | s@(_ :: rest) => pat.isPrefixOf s || containsAux pat rest

/-- Substring test `strings.Contains(s, pat)` from Go. -/
def strContains (s pat : String) : Bool :=
  containsAux pat.data s.data

/-- Go `strings.TrimSpace`: drop leading and trailing whitespace. -/
def goTrim (s : String) : String :=
  ⟨((s.data.dropWhile Char.isWhitespace).reverse.dropWhile Char.isWhitespace).reverse⟩

/-- A changed file as sent to the model: `models.File` with `Path` and `Diff`. -/
structure File where
  path : String
  diff : String
deriving Repr, DecidableEq

/-- One entry of a commit's first-parent tree diff, as seen by the loops in
`GetCommitsToRewrite` and `GetCommitsChronological`: `change.From.Name` is the
pre-change path and `change.To.Name` the post-change path, and `patch` is the
textual patch `change.Patch().String()`. -/
structure ChangeEntry where
  fromName : String
  toName : String
  patch : String
deriving Repr, DecidableEq

/-- Diff-text cap from `git.go`: `if len(diffContent) > maxDiffLength`
then `diffContent[:maxDiffLength]`. -/
def truncateDiff (diffContent : String) (maxDiffLength : Nat) : String :=
  if diffContent.length > maxDiffLength then goTake diffContent maxDiffLength
  else diffContent

/-- Body of the per-change loop in `GetCommitsToRewrite` (git.go:207-232) and
`GetCommitsChronological` (git.go:409-434): take `change.From.Name` when
non-empty, otherwise `change.To.Name`, otherwise `continue`; the kept entry
carries the capped patch text. -/
def fileOfChange (maxDiffLength : Nat) (c : ChangeEntry) : Option File :=
  if c.fromName ≠ "" then some ⟨c.fromName, truncateDiff c.patch maxDiffLength⟩
  else if c.toName ≠ "" then some ⟨c.toName, truncateDiff c.patch maxDiffLength⟩
  else none

/-- The `output.Files` list built by iterating the tree-diff entries in order,
skipping entries on which the loop hits `continue`. -/
def extractFiles (changes : List ChangeEntry) (maxDiffLength : Nat) : List File :=
  changes.filterMap (fileOfChange maxDiffLength)

/-- Classification from git.go:375 and git.go:174:
`len(c.Message) <= maxMsgLength` (Go `int` threshold, default 10). -/
def needsRewrite (message : String) (maxMsgLength : Int) : Bool :=
  decide ((message.length : Int) ≤ maxMsgLength)

/-- A source commit as delivered by the newest-first `repo.Log` iterator,
with its first-parent tree-diff entries supplied as an oracle for go-git. -/
structure RawCommit where
  hash : String
  message : String
  changes : List ChangeEntry
deriving Repr, DecidableEq

/-- The walker's per-commit output `models.CommitOutput`. -/
structure CommitOutput where
  commitID : String
  message : String
  needsRewrite : Bool
  files : List File
deriving Repr, DecidableEq

/-- One iteration of `GetCommitsChronological`'s `ForEach` body: record id and
message, classify, and extract diffs only for commits needing rewrite. -/
def mkCommitOutput (maxMsgLength : Int) (maxDiffLength : Nat) (c : RawCommit) :
    CommitOutput :=
  { commitID := c.hash
    message := c.message
    needsRewrite := needsRewrite c.message maxMsgLength
    files :=
      if needsRewrite c.message maxMsgLength then extractFiles c.changes maxDiffLength
      else [] }

/-- `GetCommitsChronological` (git.go:358-458): walk the newest-first log,
collect all commits and the needing-rewrite subsequence, then reverse both to
obtain oldest-first order. Returns `(allCommits, commitsToRewrite)`. -/
def getCommitsChronological (log : List RawCommit) (maxMsgLength : Int)
    (maxDiffLength : Nat) : List CommitOutput × List CommitOutput :=
  let all := log.map (mkCommitOutput maxMsgLength maxDiffLength)
  (all.reverse, (all.filter (fun c => c.needsRewrite)).reverse)

/-- Large-diff cap inside `GenerateNewCommitMessage` (ollama.go:73-84): a file
whose diff exceeds 2048 bytes is replaced by one carrying only its first 2048
bytes, same path; shorter files pass through unchanged. -/
def processFile (f : File) : File :=
  if f.diff.length > 2048 then { path := f.path, diff := goTake f.diff 2048 }
  else f

/-- The `processedFiles` loop of `GenerateNewCommitMessage`. -/
def processFiles (fs : List File) : List File :=
  fs.map processFile

/-- The commit payload actually serialized to the model:
`commit.Files = processedFiles` before `json.Marshal(commit)`. -/
def preparePayload (commit : CommitOutput) : CommitOutput :=
  { commit with files := processFiles commit.files }

/-- TruncateString from pkg/helpers/strings.go:8-13. `maxLen` is a Go `int`;
the Go slice `s[:maxLen-3]` is taken only when `len(s) > maxLen`, and it
panics when `maxLen - 3` is negative, modelled here as `none`. -/
def TruncateString (s : String) (maxLen : Int) : Option String :=
  if (s.length : Int) ≤ maxLen then some s
  else if maxLen - 3 < 0 then none
  else some (goTake s (maxLen - 3).toNat ++ "...")

/-- One entry of the parsed generation response: the Go code reads the map
keys `type`, `description` and `affected_app` of each element of
`newCommit.Messages` (run.go:378-384). -/
structure MsgEntry where
  type : String
  description : String
  affectedApp : String
deriving Repr, DecidableEq

/-- Vocabulary test from run.go:379: the entry is kept only when its type is
feat, fix, chore, docs, refactor or perf. -/
def validType (t : String) : Bool :=
  t == "feat" || t == "fix" || t == "chore" || t == "docs" ||
  t == "refactor" || t == "perf"

/-- Line format from run.go:382: `"%s: %s (%s)"` over type, description and
affected app. -/
def formatEntry (m : MsgEntry) : String :=
  m.type ++ ": " ++ m.description ++ " (" ++ m.affectedApp ++ ")"

/-- The `newMessageLines` accumulation loop of run.go:377-384: skip entries
with a type outside the vocabulary, format the rest in order. -/
def newMessageLines : List MsgEntry → List String
  | [] => []
  | m :: ms =>
    if validType m.type then formatEntry m :: newMessageLines ms
    else newMessageLines ms

/-- The rewritten message from run.go:385:
`strings.Join(newMessageLines, "\n\r")`. -/
def buildNewMessage (msgs : List MsgEntry) : String :=
  String.intercalate "\n\r" (newMessageLines msgs)

/-- A journal entry `models.RewriteOutput`: the RewriteDecision persisted by
the dry-run checkpoint file. -/
structure RewriteOutput where
  commitID : String
  originalMsg : String
  rewrittenMsg : String
  filesChanged : Nat
  isApplied : Bool
deriving Repr, DecidableEq

/-- The linear-scan helper `containsCommitID` of run.go:467-474. -/
def containsCommitID : List String → String → Bool
  | [], _ => false
  | x :: xs, id => if x == id then true else containsCommitID xs id

/-- loadExistingDryRunResults (run.go:477-498): a missing or unreadable or
malformed journal file (modelled as `none`) yields no prior progress;
otherwise the parsed decision list is returned together with the list of its
commit ids. -/
def loadExistingDryRunResults (fileData : Option (List RewriteOutput)) :
    List RewriteOutput × List String :=
  match fileData with
  | none => ([], [])
  | some outputs => (outputs, outputs.map (fun o => o.commitID))

/-- The resume filter of run.go:227-232: keep only candidates whose id is not
among the already-processed ids. -/
def filterProcessed (commitsToRewrite : List CommitOutput)
    (processedCommitIDs : List String) : List CommitOutput :=
  commitsToRewrite.filter (fun c => !containsCommitID processedCommitIDs c.commitID)

/-- Observable events of a dry-run batch: a produced decision, a periodic
save of the journal (savePartialDryRunResults at run.go:401-403), and the
final save (the completion write at run.go:422-438, or the interrupt write at
run.go:453-457). Save events carry the serialized decision list. -/
inductive BatchEvent where
  | decision (id : String)
  | periodicSave (journal : List RewriteOutput)
  | finalSave (journal : List RewriteOutput)
deriving Repr, DecidableEq

/-- Mutable state of the dry-run goroutine: `ui.ProcessedCommits`, the
`rewriteOutputs` slice, and the recorded event trace. -/
structure BatchState where
  processed : Nat
  outputs : List RewriteOutput
  trace : List BatchEvent
deriving Repr, DecidableEq

/-- Static inputs of one batch run: the generation oracles standing for the
Ollama calls (`none` is a generation failure, handled by `continue`), the
optional compiled exclusion predicate, the file-count ceiling and the
summarize-oversized flag. -/
structure BatchParams where
  gen : CommitOutput → Option (List MsgEntry)
  genSimplified : CommitOutput → Option String
  exclude : Option (String → Bool)
  maxFilesPerCommit : Nat
  summarizeOversized : Bool

/-- File-exclusion pass of run.go:293-306: with no pattern the files are kept
as-is, otherwise files with matching paths are dropped. -/
def applyExclusion (exclude : Option (String → Bool)) (files : List File) :
    List File :=
  match exclude with
  | none => files
  | some p => files.filter (fun f => !p f.path)

/-- The body of the dry-run processing loop of run.go:269-419 for one commit:
passthrough commits only advance the progress counter; oversized commits take
the simplified path (no periodic save); ordinary candidates get a decision
appended and trigger a periodic save exactly when the pre-increment value of
`ui.ProcessedCommits` is divisible by 5. -/
def stepCommit (P : BatchParams) (st : BatchState) (commit : CommitOutput) :
    BatchState :=
  if !commit.needsRewrite then
    { st with processed := st.processed + 1 }
  else
    let files := applyExclusion P.exclude commit.files
    let commit' := { commit with files := files }
    if files.length > P.maxFilesPerCommit then
      if P.summarizeOversized then
        match P.genSimplified commit' with
        | none => st
        | some newMessage =>
          let dec : RewriteOutput :=
            { commitID := commit'.commitID
              originalMsg := goTrim commit'.message
              rewrittenMsg := newMessage
              filesChanged := files.length
              isApplied := false }
          { processed := st.processed + 1
            outputs := st.outputs ++ [dec]
            trace := st.trace ++ [BatchEvent.decision commit'.commitID] }
      else st
    else
      match P.gen commit' with
      | none => st
      | some msgs =>
        let newMessage := buildNewMessage msgs
        let dec : RewriteOutput :=
          { commitID := commit'.commitID
            originalMsg := goTrim commit'.message
            rewrittenMsg := newMessage
            filesChanged := files.length
            isApplied := false }
        let outputs' := st.outputs ++ [dec]
        let withDec := st.trace ++ [BatchEvent.decision commit'.commitID]
        let trace' :=
          if st.processed % 5 == 0 then withDec ++ [BatchEvent.periodicSave outputs']
          else withDec
        { processed := st.processed + 1, outputs := outputs', trace := trace' }

/-- The dry-run goroutine loop over `allCommits` folded from an initial
state. -/
def runBatch (P : BatchParams) (commits : List CommitOutput)
    (st : BatchState) : BatchState :=
  commits.foldl (stepCommit P) st

/-- Completion write of run.go:422-438 (the interrupt write of run.go:453-457
is gated by the same `len(rewriteOutputs) > 0` test): the full decision list
is written only when it is non-empty. -/
def finishBatch (st : BatchState) : BatchState :=
  if st.outputs.isEmpty then st
  else { st with trace := st.trace ++ [BatchEvent.finalSave st.outputs] }

/-- The dry-run pipeline of run.go:219-446: load the existing journal, set the
initial decision list and progress counter from it, compute the filtered
candidate list (run.go:227-235) — which the subsequent loop does not consult:
the goroutine iterates `allCommits` (run.go:269) — then run the loop and the
completion write. -/
def dryRunPipeline (P : BatchParams) (fileData : Option (List RewriteOutput))
    (allCommits : List CommitOutput) : BatchState :=
  let loaded := loadExistingDryRunResults fileData
  let start : BatchState :=
    if loaded.1.length > 0 then
      { processed := loaded.1.length, outputs := loaded.1, trace := [] }
    else
      { processed := 0, outputs := [], trace := [] }
  finishBatch (runBatch P allCommits start)

/-- Outcomes of the side-effecting steps of `ApplyCommitToNewRepo`
(git.go:461-602), in execution order: commit lookup, tree resolution, temp
directory creation, tree extraction, reading the new repo's directory,
removing its files, copying the scratch tree in, `git add -A`, and
`git commit`. The commit step carries the combined output and error text. -/
structure ApplyEnv where
  commitObjectOk : Bool
  treeOk : Bool
  tempDirOk : Bool
  extractOk : Bool
  readDirOk : Bool
  removeOk : Bool
  copyOk : Bool
  addOk : Bool
  addOutput : String
  commitOk : Bool
  commitErr : String
  commitOutput : String

/-- ApplyCommitToNewRepo (git.go:461-602) over the step oracles: the first
failing step yields its error; a failing `git commit` whose combined output
contains "nothing to commit" is swallowed (git.go:593-597) and the function
returns success (`none`). -/
def ApplyCommitToNewRepo (env : ApplyEnv) : Option String :=
  if !env.commitObjectOk then some "failed to get commit object"
  else if !env.treeOk then some "failed to get tree for commit"
  else if !env.tempDirOk then some "failed to create temp directory"
  else if !env.extractOk then some "failed to extract files"
  else if !env.readDirOk then some "failed to read new repo directory"
  else if !env.removeOk then some "failed to remove file"
  else if !env.copyOk then some "failed to copy files"
  else if !env.addOk then
    some ("failed to add files to new repo, output: " ++ env.addOutput)
  else if !env.commitOk then
    if strContains env.commitOutput "nothing to commit" then none
    else some (("failed to commit to new repo: " ++ env.commitErr ++ ", output: ") ++
      env.commitOutput)
  else none

/-- Outcomes of the side-effecting steps of `RewordCommit` (git.go:30-161),
in execution order: the `rev-parse --git-dir` repository check, the parent
resolution (`none` means the commit is a root and the rebase runs from
`--root`), the abbreviated-hash resolution, the temp-file plumbing for the
two editor scripts, the stale `rebase-merge` cleanup, the defensive
`git rebase --abort`, and the `git rebase -i` invocation itself with its
combined output. -/
structure RewordEnv where
  inGitRepo : Bool
  parentOutput : Option String
  shortOutput : Option String
  tempEditorOk : Bool
  tempMsgFileOk : Bool
  writeMsgOk : Bool
  closeMsgOk : Bool
  writeEditorOk : Bool
  closeEditorOk : Bool
  chmodOk : Bool
  rebaseMergeDirExists : Bool
  removeMergeDirOk : Bool
  abortOk : Bool
  abortOutput : String
  rebaseOk : Bool
  rebaseErr : String
  rebaseOutput : String

/-- RewordCommit (git.go:30-161) over the step oracles. The result pairs the
returned error (or unit) with the number of times the `git rebase -i`
subprocess was started during the call. On a non-zero rebase exit the error is
`"rebase failed: %v\nOutput: %s"` over the exec error and the combined
output (git.go:154-157), and the function returns without re-running the
rebase. -/
def RewordCommit (env : RewordEnv) : Except String Unit × Nat :=
  if !env.inGitRepo then (Except.error "not a git repository", 0)
  else
    match env.shortOutput with
    | none => (Except.error "failed to get abbreviated hash for commit", 0)
    | some _ =>
      if !env.tempEditorOk then (Except.error "failed to create temp editor script", 0)
      else if !env.tempMsgFileOk then
        (Except.error "failed to create temp file for new commit message", 0)
      else if !env.writeMsgOk then (Except.error "failed to write new commit message", 0)
      else if !env.closeMsgOk then (Except.error "failed to close temp file", 0)
      else if !env.writeEditorOk then (Except.error "failed to write temp editor", 0)
      else if !env.closeEditorOk then (Except.error "failed to close temp editor", 0)
      else if !env.chmodOk then (Except.error "failed to make editor executable", 0)
      else if env.rebaseMergeDirExists && !env.removeMergeDirOk then
        (Except.error "failed to remove rebase-merge directory", 0)
      else if !env.abortOk && !strContains env.abortOutput "No rebase in progress?" then
        (Except.error "failed to clear rebase state", 0)
      else if !env.rebaseOk then
        (Except.error (("rebase failed: " ++ env.rebaseErr ++ "\nOutput: ") ++
          env.rebaseOutput), 1)
      else (Except.ok (), 1)

/-- Formulation of claim C1's path rule as stated by the spec section 4.1
read against this loop: keep entries having at least one path, and record the
preferred one. The preference proved below is pre-change first, which is what
the code does; the claim's post-change-first version is refuted. -/
def extractFilesPreferFrom (changes : List ChangeEntry) (maxDiffLength : Nat) :
    List File :=
  (changes.filter (fun e => !(e.fromName == "") || !(e.toName == ""))).map
    (fun e =>
      ⟨if e.fromName ≠ "" then e.fromName else e.toName,
       truncateDiff e.patch maxDiffLength⟩)

/-- Formulation of claim C5's joining rule as written: the kept entries, one
per line, each line being exactly the formatted entry - that is, joined with
a bare newline. -/
def joinedOnePerLine (msgs : List MsgEntry) : String :=
  String.intercalate "\n" ((msgs.filter (fun m => validType m.type)).map formatEntry)

/-- Number of decision events in a batch trace. -/
def countDecisions : List BatchEvent → Nat
  | [] => 0
  | BatchEvent.decision _ :: r => countDecisions r + 1
  | _ :: r => countDecisions r

/-- Whether the event immediately after the n-th decision of the trace
(1-based) is a periodic save. -/
def periodicSaveFollowsNth : List BatchEvent → Nat → Bool
  | [], _ => false
  | BatchEvent.decision _ :: _, 0 => false
  | BatchEvent.decision _ :: rest, 1 =>
    (match rest with
     | BatchEvent.periodicSave _ :: _ => true
     | _ => false)
  | BatchEvent.decision _ :: rest, m + 2 => periodicSaveFollowsNth rest (m + 1)
  | BatchEvent.periodicSave _ :: rest, n => periodicSaveFollowsNth rest n
  | BatchEvent.finalSave _ :: rest, n => periodicSaveFollowsNth rest n

/-- A commit that takes the ordinary dry-run path and succeeds: it needs a
rewrite, survives the file-count ceiling after exclusion, and the generation
call returns a response. -/
def simpleSuccess (P : BatchParams) (c : CommitOutput) : Bool :=
  c.needsRewrite &&
  decide ((applyExclusion P.exclude c.files).length ≤ P.maxFilesPerCommit) &&
  (P.gen { c with files := applyExclusion P.exclude c.files }).isSome

/-- The decision `stepCommit` appends for a simple successful commit. -/
def decisionFor (P : BatchParams) (c : CommitOutput) : RewriteOutput :=
  { commitID := c.commitID
    originalMsg := goTrim c.message
    rewrittenMsg :=
      buildNewMessage
        ((P.gen { c with files := applyExclusion P.exclude c.files }).getD [])
    filesChanged := (applyExclusion P.exclude c.files).length
    isApplied := false }

/-- The trace a run over simple successful commits produces, starting from
processed count `p` and journal `outs`. -/
def simpleEvents (P : BatchParams) (p : Nat) (outs : List RewriteOutput) :
    List CommitOutput → List BatchEvent
  | [] => []
  | c :: cs =>
    let dec := decisionFor P c
    (BatchEvent.decision c.commitID ::
      (if p % 5 == 0 then [BatchEvent.periodicSave (outs ++ [dec])] else [])) ++
      simpleEvents P (p + 1) (outs ++ [dec]) cs

/-- Batch parameters used by the concrete runs below: no exclusion pattern,
default file ceiling 200, no summarization, and a generation oracle that
always answers with one feat entry naming the commit. -/
def sampleParams : BatchParams :=
  { gen := fun c => some [⟨"feat", "describe " ++ c.commitID, "app"⟩]
    genSimplified := fun _ => some "chore: summarized (app)"
    exclude := none
    maxFilesPerCommit := 200
    summarizeOversized := false }

/-- A candidate commit with the given id: short message, needs rewrite, one
changed file. -/
def sampleCommit (id : String) : CommitOutput :=
  { commitID := id
    message := "wip"
    needsRewrite := true
    files := [⟨"a.txt", "diff-" ++ id⟩] }

/-- Step outcomes of a replay where everything up to `git commit` succeeds
and the commit subprocess exits non-zero reporting a clean tree. -/
def sampleApplyEnv : ApplyEnv :=
  { commitObjectOk := true
    treeOk := true
    tempDirOk := true
    extractOk := true
    readDirOk := true
    removeOk := true
    copyOk := true
    addOk := true
    addOutput := ""
    commitOk := false
    commitErr := "exit status 1"
    commitOutput := "nothing to commit, working tree clean" }

/-- Step outcomes of a reword where everything up to `git rebase -i` succeeds
and the rebase subprocess exits non-zero with conflict output. -/
def sampleRewordEnv : RewordEnv :=
  { inGitRepo := true
    parentOutput := some "1111111111111111111111111111111111111111"
    shortOutput := some "abcd123"
    tempEditorOk := true
    tempMsgFileOk := true
    writeMsgOk := true
    closeMsgOk := true
    writeEditorOk := true
    closeEditorOk := true
    chmodOk := true
    rebaseMergeDirExists := false
    removeMergeDirOk := true
    abortOk := false
    abortOutput := "error: No rebase in progress?"
    rebaseOk := false
    rebaseErr := "exit status 1"
    rebaseOutput := "error: could not apply abcd123" }

/-- A prior journal holding decisions for commit ids A and B. -/
def journalAB : List RewriteOutput :=
  [{ commitID := "A"
     originalMsg := "init"
     rewrittenMsg := "feat: old A (app)"
     filesChanged := 1
     isApplied := false },
   { commitID := "B"
     originalMsg := "fix"
     rewrittenMsg := "feat: old B (app)"
     filesChanged := 1
     isApplied := false }]

/-- The walker's candidate list for the resume scenario: A, B and C, all
needing rewrite. -/
def candidatesABC : List CommitOutput :=
  [sampleCommit "A", sampleCommit "B", sampleCommit "C"]

/-- A fresh batch of five ordinary candidates. -/
def batch5 : List CommitOutput :=
  [sampleCommit "1", sampleCommit "2", sampleCommit "3", sampleCommit "4",
   sampleCommit "5"]

/-- A fresh batch of six ordinary candidates. -/
def batch6 : List CommitOutput :=
  [sampleCommit "1", sampleCommit "2", sampleCommit "3", sampleCommit "4",
   sampleCommit "5", sampleCommit "6"]

/-- The state a fresh batch starts from. -/
def emptyBatchState : BatchState :=
  { processed := 0, outputs := [], trace := [] }

theorem goTake_length (s : String) (n : Nat) :
    (goTake s n).length = min n s.length := by
  show (s.data.take n).length = min n s.data.length
  exact List.length_take n s.data

theorem string_append_length (a b : String) :
    (a ++ b).length = a.length + b.length := by
  cases a with
  | mk as =>
    cases b with
    | mk bs =>
      show (as ++ bs).length = as.length + bs.length
      exact List.length_append as bs

theorem string_append_empty (s : String) : s ++ "" = s := by
  cases s with
  | mk l =>
    show String.mk (l ++ []) = String.mk l
    simp

/-- C2: the History Walker classifies a commit as needing rewrite iff the
length of its message is at most `maxMsgLength`; in particular a message of
length exactly `maxMsgLength` needs rewrite and one of length
`maxMsgLength + 1` does not. -/
theorem c2_classification (L : Int) (D : Nat) (c : RawCommit) :
    ((mkCommitOutput L D c).needsRewrite = true ↔ (c.message.length : Int) ≤ L) ∧
    ((c.message.length : Int) = L → (mkCommitOutput L D c).needsRewrite = true) ∧
    ((c.message.length : Int) = L + 1 →
      (mkCommitOutput L D c).needsRewrite = false) := by
  refine ⟨?_, ?_, ?_⟩
  · simp [mkCommitOutput, needsRewrite]
  · intro h
    simp [mkCommitOutput, needsRewrite]
    omega
  · intro h
    simp [mkCommitOutput, needsRewrite]
    omega

/-- Witness for C2 at the default threshold 10: a 10-character message is
classified as needing rewrite, an 11-character one is not. -/
theorem c2_classification_witness :
    ((("0123456789" : String).length : Int) = 10 ∧
      (mkCommitOutput 10 0 ⟨"id1", "0123456789", []⟩).needsRewrite = true) ∧
    ((("0123456789a" : String).length : Int) = 10 + 1 ∧
      (mkCommitOutput 10 0 ⟨"id2", "0123456789a", []⟩).needsRewrite = false) :=
  ⟨⟨by decide, (c2_classification 10 0 ⟨"id1", "0123456789", []⟩).2.1 (by decide)⟩,
   ⟨by decide, (c2_classification 10 0 ⟨"id2", "0123456789a", []⟩).2.2 (by decide)⟩⟩

/-- C4: reversing the Walker's all-commits output yields exactly the
newest-first log traversal (same ids, same order), and the returned list is a
permutation of the per-commit outputs (same elements, opposite order). -/
theorem c4_reversal_order (log : List RawCommit) (L : Int) (D : Nat) :
    ((getCommitsChronological log L D).1).reverse =
      log.map (mkCommitOutput L D) ∧
    ((getCommitsChronological log L D).1).reverse.map (fun c => c.commitID) =
      log.map (fun c => c.hash) ∧
    List.Perm ((getCommitsChronological log L D).1)
      (log.map (mkCommitOutput L D)) := by
  refine ⟨?_, ?_, ?_⟩
  · simp [getCommitsChronological]
  · simp [getCommitsChronological, List.map_map, mkCommitOutput]
  · exact (log.map (mkCommitOutput L D)).reverse_perm

/-- C9: every file in the payload prepared by GenerateNewCommitMessage has a
diff of at most 2048 bytes, namely the 2048-byte prefix of the corresponding
input file's diff, for any input whatsoever (the function receives no
`maxDiffLength` and caps unconditionally). -/
theorem c9_payload_diff_cap (commit : CommitOutput) (f : File)
    (hf : f ∈ (preparePayload commit).files) :
    f.diff.length ≤ 2048 ∧
    ∃ g ∈ commit.files, f.path = g.path ∧ f.diff = goTake g.diff 2048 := by
  have hmem : f ∈ commit.files.map processFile := hf
  obtain ⟨g, hg, rfl⟩ := List.mem_map.mp hmem
  unfold processFile
  by_cases hlen : g.diff.length > 2048
  · simp only [if_pos hlen]
    refine ⟨?_, g, hg, rfl, rfl⟩
    simp [goTake_length]
  · simp only [if_neg hlen]
    refine ⟨by omega, g, hg, rfl, ?_⟩
    have hle : g.diff.data.length ≤ 2048 := Nat.le_of_not_lt hlen
    have : g.diff.data.take 2048 = g.diff.data := List.take_of_length_le hle
    show g.diff = String.mk (g.diff.data.take 2048)
    rw [this]

/-- Witness for C9 on a one-file commit. -/
theorem c9_payload_diff_cap_witness :
    (⟨"a.txt", "diff-W"⟩ : File) ∈ (preparePayload (sampleCommit "W")).files ∧
    ((⟨"a.txt", "diff-W"⟩ : File).diff.length ≤ 2048 ∧
      ∃ g ∈ (sampleCommit "W").files,
        (⟨"a.txt", "diff-W"⟩ : File).path = g.path ∧
        (⟨"a.txt", "diff-W"⟩ : File).diff = goTake g.diff 2048) :=
  ⟨by decide,
   c9_payload_diff_cap (sampleCommit "W") ⟨"a.txt", "diff-W"⟩ (by decide)⟩

/-- C10: TruncateString returns its input unchanged when it fits, returns the
`maxLen - 3`-byte prefix plus an ellipsis — of length exactly `maxLen` — when
the input is longer and `maxLen ≥ 3`, and for `maxLen < 3` with a longer
input the slice `s[:maxLen-3]` is out of bounds, so the function is not
total. -/
theorem c10_truncate_string (s : String) (maxLen : Int) :
    ((s.length : Int) ≤ maxLen → TruncateString s maxLen = some s) ∧
    (maxLen < (s.length : Int) → 3 ≤ maxLen →
      TruncateString s maxLen = some (goTake s (maxLen - 3).toNat ++ "...") ∧
      ((goTake s (maxLen - 3).toNat ++ "...").length : Int) = maxLen) ∧
    (maxLen < (s.length : Int) → maxLen < 3 →
      TruncateString s maxLen = none) := by
  refine ⟨?_, ?_, ?_⟩
  · intro h
    simp [TruncateString, h]
  · intro h1 h2
    have hn : ¬ (s.length : Int) ≤ maxLen := by omega
    have hneg : ¬ maxLen - 3 < 0 := by omega
    refine ⟨by simp [TruncateString, hn, hneg], ?_⟩
    have hdots : ("..." : String).length = 3 := by decide
    rw [string_append_length, goTake_length, hdots]
    omega
  · intro h1 h2
    have hn : ¬ (s.length : Int) ≤ maxLen := by omega
    have hneg : maxLen - 3 < 0 := by omega
    simp [TruncateString, hn, hneg]

/-- Witness for C10: truncating an 11-character string to 5 produces a
5-character result, and truncating a 3-character string to 2 hits the
out-of-bounds slice. -/
theorem c10_truncate_string_witness :
    ((5 : Int) < (("hello world" : String).length : Int) ∧ (3 : Int) ≤ 5 ∧
      TruncateString "hello world" 5 =
        some (goTake "hello world" ((5 : Int) - 3).toNat ++ "...")) ∧
    ((2 : Int) < (("abc" : String).length : Int) ∧ (2 : Int) < 3 ∧
      TruncateString "abc" 2 = none) :=
  ⟨⟨by decide, by decide,
     ((c10_truncate_string "hello world" 5).2.1 (by decide) (by decide)).1⟩,
   ⟨by decide, by decide,
     (c10_truncate_string "abc" 2).2.2 (by decide) (by decide)⟩⟩

/-- C6: when every replay step up to the commit succeeds and the `git commit`
subprocess exits non-zero reporting "nothing to commit", ApplyCommitToNewRepo
swallows the failure and returns no error. -/
theorem c6_nothing_to_commit_success (env : ApplyEnv)
    (h1 : env.commitObjectOk = true) (h2 : env.treeOk = true)
    (h3 : env.tempDirOk = true) (h4 : env.extractOk = true)
    (h5 : env.readDirOk = true) (h6 : env.removeOk = true)
    (h7 : env.copyOk = true) (h8 : env.addOk = true)
    (h9 : env.commitOk = false)
    (h10 : strContains env.commitOutput "nothing to commit" = true) :
    ApplyCommitToNewRepo env = none := by
  simp [ApplyCommitToNewRepo, h1, h2, h3, h4, h5, h6, h7, h8, h9, h10]

/-- Witness for C6 at a concrete run whose commit step reports a clean
tree. -/
theorem c6_nothing_to_commit_success_witness :
    sampleApplyEnv.commitOk = false ∧
    strContains sampleApplyEnv.commitOutput "nothing to commit" = true ∧
    ApplyCommitToNewRepo sampleApplyEnv = none :=
  ⟨rfl, by decide,
   c6_nothing_to_commit_success sampleApplyEnv rfl rfl rfl rfl rfl rfl rfl rfl
     rfl (by decide)⟩

set_option maxHeartbeats 1600000 in
/-- C8: RewordCommit starts the interactive-rebase subprocess at most once
per invocation, and whenever the call reaches the rebase and the rebase exits
non-zero, the returned error contains the subprocess's combined output
verbatim and the rebase is not re-run. -/
theorem c8_rebase_failure_surfaced (env : RewordEnv) :
    (RewordCommit env).2 ≤ 1 ∧
    (env.inGitRepo = true → env.shortOutput.isSome = true →
     env.tempEditorOk = true → env.tempMsgFileOk = true →
     env.writeMsgOk = true → env.closeMsgOk = true →
     env.writeEditorOk = true → env.closeEditorOk = true →
     env.chmodOk = true →
     (env.rebaseMergeDirExists && !env.removeMergeDirOk) = false →
     (!env.abortOk && !strContains env.abortOutput "No rebase in progress?") = false →
     env.rebaseOk = false →
     (∃ pre post,
        (RewordCommit env).1 = Except.error (pre ++ env.rebaseOutput ++ post)) ∧
     (RewordCommit env).2 = 1) := by
  constructor
  · unfold RewordCommit
    repeat' split
    all_goals first
    | exact Nat.zero_le 1
    | exact Nat.le_refl 1
  · intro h1 h2 h3 h4 h5 h6 h7 h8 h9 h10 h11 h12
    obtain ⟨sh, hsh⟩ := Option.isSome_iff_exists.mp h2
    have hres : RewordCommit env =
        (Except.error (("rebase failed: " ++ env.rebaseErr ++ "\nOutput: ") ++
          env.rebaseOutput), 1) := by
      simp [RewordCommit, h1, hsh, h3, h4, h5, h6, h7, h8, h9, h10, h11, h12]
    refine ⟨⟨"rebase failed: " ++ env.rebaseErr ++ "\nOutput: ", "", ?_⟩, ?_⟩
    · rw [hres, string_append_empty]
    · rw [hres]

/-- Witness for C8 at a concrete failing rebase. -/
theorem c8_rebase_failure_surfaced_witness :
    sampleRewordEnv.rebaseOk = false ∧
    (∃ pre post,
       (RewordCommit sampleRewordEnv).1 =
         Except.error (pre ++ sampleRewordEnv.rebaseOutput ++ post)) ∧
    (RewordCommit sampleRewordEnv).2 = 1 :=
  ⟨rfl,
   ((c8_rebase_failure_surfaced sampleRewordEnv).2 rfl (by decide) rfl rfl rfl
      rfl rfl rfl rfl (by decide) (by decide) rfl).1,
   ((c8_rebase_failure_surfaced sampleRewordEnv).2 rfl (by decide) rfl rfl rfl
      rfl rfl rfl rfl (by decide) (by decide) rfl).2⟩

/-- C1 (counterexample): on a rename entry whose pre-change path is
`old.txt` and whose post-change path is `new.txt`, the recorded canonical
path is `old.txt`, not the non-empty post-change path claimed. -/
theorem c1_canonical_path_counterexample :
    extractFiles [⟨"old.txt", "new.txt", "d"⟩] 100 = [⟨"old.txt", "d"⟩] ∧
    ¬ (extractFiles [⟨"old.txt", "new.txt", "d"⟩] 100).map (fun f => f.path) =
        ["new.txt"] := by
  decide

/-- C1 (amended): for every changed entry, the canonical path recorded in
the FileChange is the pre-change path when it is non-empty, otherwise the
post-change path, and entries with neither path are skipped: the extraction
loop equals the filter of entries having at least one path mapped to the
pre-change-preferred path with the capped diff. -/
theorem c1_canonical_path_amended (changes : List ChangeEntry)
    (maxDiffLength : Nat) :
    extractFiles changes maxDiffLength =
      extractFilesPreferFrom changes maxDiffLength := by
  induction changes with
  | nil => rfl
  | cons e t ih =>
    unfold extractFiles extractFilesPreferFrom at ih ⊢
    by_cases h1 : e.fromName = ""
    · by_cases h2 : e.toName = ""
      · simp [List.filterMap_cons, List.filter_cons, fileOfChange, h1, h2, ih]
      · simp [List.filterMap_cons, List.filter_cons, fileOfChange, h1, h2, ih]
    · simp [List.filterMap_cons, List.filter_cons, fileOfChange, h1, ih]

/-- C5 (counterexample): with two kept entries the built message joins them
with the two-character separator `"\n\r"`, so the entries are not joined one
per line with each line exactly the formatted entry (the second line carries
a leading carriage return). -/
theorem c5_join_counterexample :
    buildNewMessage [⟨"feat", "a", "x"⟩, ⟨"fix", "b", "y"⟩] ≠
      joinedOnePerLine [⟨"feat", "a", "x"⟩, ⟨"fix", "b", "y"⟩] ∧
    buildNewMessage [⟨"feat", "a", "x"⟩, ⟨"fix", "b", "y"⟩] =
      "feat: a (x)\n\rfix: b (y)" ∧
    joinedOnePerLine [⟨"feat", "a", "x"⟩, ⟨"fix", "b", "y"⟩] =
      "feat: a (x)\nfix: b (y)" := by
  decide

/-- C5 (amended): every entry whose type is outside the vocabulary feat,
fix, chore, docs, refactor, perf is silently dropped, and the remaining
entries, each formatted as `type: description (affected_app)`, are joined
with the separator `"\n\r"`. -/
theorem c5_message_build_amended (msgs : List MsgEntry) :
    buildNewMessage msgs =
      String.intercalate "\n\r"
        ((msgs.filter (fun m => validType m.type)).map formatEntry) := by
  unfold buildNewMessage
  congr 1
  induction msgs with
  | nil => rfl
  | cons m ms ih =>
    cases hv : validType m.type <;>
      simp [newMessageLines, List.filter_cons, hv, ih]

/-- C3: evaluation of the dry-run pipeline at the resume scenario: with a
journal holding decisions for A and B and candidates A, B, C, the resume
filter correctly computes the single remaining candidate C, but the
processing loop iterates the unfiltered commit list, so the final journal
holds five entries with two decisions each for A and B (the original two
entries survive unchanged at the front). -/
theorem c3_resume_reprocesses_journaled_commits :
    filterProcessed candidatesABC (journalAB.map (fun o => o.commitID)) =
      [sampleCommit "C"] ∧
    (dryRunPipeline sampleParams (some journalAB) candidatesABC).outputs.length = 5 ∧
    ((dryRunPipeline sampleParams (some journalAB) candidatesABC).outputs.countP
      (fun o => o.commitID == "A")) = 2 ∧
    (dryRunPipeline sampleParams (some journalAB) candidatesABC).outputs.take 2 =
      journalAB := by
  decide

theorem stepCommit_simple (P : BatchParams) (c : CommitOutput) (st : BatchState)
    (h : simpleSuccess P c = true) :
    stepCommit P st c =
      { processed := st.processed + 1
        outputs := st.outputs ++ [decisionFor P c]
        trace := st.trace ++
          (BatchEvent.decision c.commitID ::
            (if st.processed % 5 == 0 then
              [BatchEvent.periodicSave (st.outputs ++ [decisionFor P c])]
            else [])) } := by
  have h' := h
  unfold simpleSuccess at h'
  rw [Bool.and_eq_true, Bool.and_eq_true] at h'
  obtain ⟨⟨hnr, hlen⟩, hgen⟩ := h'
  obtain ⟨msgs, hmsgs⟩ := Option.isSome_iff_exists.mp hgen
  rw [hnr] at hmsgs
  have hnot : ¬ (applyExclusion P.exclude c.files).length > P.maxFilesPerCommit := by
    simpa using hlen
  unfold stepCommit decisionFor
  by_cases hc : (st.processed % 5 == 0) = true
  · simp [hnr, hmsgs, hnot, hc, List.append_assoc]
  · simp [hnr, hmsgs, hnot, hc]

theorem runBatch_simple (P : BatchParams) (cs : List CommitOutput)
    (h : ∀ c ∈ cs, simpleSuccess P c = true) (p : Nat)
    (outs : List RewriteOutput) (t : List BatchEvent) :
    runBatch P cs { processed := p, outputs := outs, trace := t } =
      { processed := p + cs.length
        outputs := outs ++ cs.map (decisionFor P)
        trace := t ++ simpleEvents P p outs cs } := by
  induction cs generalizing p outs t with
  | nil => simp [runBatch, simpleEvents]
  | cons c cs ih =>
    have hc : simpleSuccess P c = true := h c (List.mem_cons_self c cs)
    have hrest : ∀ x ∈ cs, simpleSuccess P x = true :=
      fun x hx => h x (List.mem_cons_of_mem c hx)
    unfold runBatch
    rw [List.foldl_cons, stepCommit_simple P c _ hc]
    have hrec := ih hrest (p + 1) (outs ++ [decisionFor P c])
      (t ++ (BatchEvent.decision c.commitID ::
        (if p % 5 == 0 then
          [BatchEvent.periodicSave (outs ++ [decisionFor P c])] else [])))
    unfold runBatch at hrec
    rw [hrec]
    simp [simpleEvents, List.append_assoc]
    omega

theorem simpleEvents_follows (P : BatchParams) (cs : List CommitOutput)
    (p : Nat) (outs : List RewriteOutput) (n : Nat) :
    periodicSaveFollowsNth (simpleEvents P p outs cs) (n + 1) = true ↔
      (n + 1 ≤ cs.length ∧ (p + n) % 5 = 0) := by
  induction cs generalizing p outs n with
  | nil => simp [simpleEvents, periodicSaveFollowsNth]
  | cons c cs ih =>
    cases n with
    | zero =>
      by_cases hp : (p % 5 == 0) = true
      · have hp5 : p % 5 = 0 := by simpa using hp
        simp [simpleEvents, periodicSaveFollowsNth, hp, hp5]
      · have hp5 : ¬ p % 5 = 0 := by simpa using hp
        cases cs with
        | nil => simp [simpleEvents, periodicSaveFollowsNth, hp, hp5]
        | cons c2 cs2 => simp [simpleEvents, periodicSaveFollowsNth, hp, hp5]
    | succ m =>
      by_cases hp : (p % 5 == 0) = true
      · simp only [simpleEvents, List.cons_append, List.singleton_append,
          List.append_eq, List.nil_append, List.length_cons, if_pos hp,
          periodicSaveFollowsNth, ih]
        omega
      · simp only [simpleEvents, List.cons_append, List.singleton_append,
          List.append_eq, List.nil_append, List.length_cons, if_neg hp,
          periodicSaveFollowsNth, ih]
        omega

/-- C7 (counterexample): in a fresh dry-run batch of five ordinary
candidates, five decisions are produced but no save follows the fifth
decision (the code saves when the pre-increment processed counter is
divisible by 5, which holds at the first decision, not the fifth), and with
no decisions at all, completion writes nothing, so the journal is not
serialized unconditionally on completion. -/
theorem c7_save_cadence_counterexample :
    countDecisions (runBatch sampleParams batch5 emptyBatchState).trace = 5 ∧
    periodicSaveFollowsNth (runBatch sampleParams batch5 emptyBatchState).trace 5 =
      false ∧
    periodicSaveFollowsNth (runBatch sampleParams batch5 emptyBatchState).trace 1 =
      true ∧
    finishBatch emptyBatchState = emptyBatchState := by
  decide

/-- C7 (amended): in a fresh dry-run batch whose commits all take the
ordinary path successfully, the full decision list is serialized immediately
after the n-th decision exactly when `n - 1` is divisible by 5 — that is,
after the 1st, 6th, 11th, ... decision, when the pre-increment processed
counter is divisible by 5 — and on normal completion (and likewise on
interrupt) the list is serialized exactly when at least one decision is
present. -/
theorem c7_save_cadence_amended (P : BatchParams) (cs : List CommitOutput)
    (h : ∀ c ∈ cs, simpleSuccess P c = true) :
    (∀ n : Nat,
       periodicSaveFollowsNth (runBatch P cs emptyBatchState).trace (n + 1) =
         true ↔ (n + 1 ≤ cs.length ∧ n % 5 = 0)) ∧
    (∀ st : BatchState,
       (finishBatch st).trace = st.trace ++ [BatchEvent.finalSave st.outputs] ↔
         st.outputs ≠ []) := by
  constructor
  · intro n
    have hr := runBatch_simple P cs h 0 [] []
    rw [show emptyBatchState = { processed := 0, outputs := [], trace := [] } from rfl,
      hr]
    simpa using simpleEvents_follows P cs 0 [] n
  · intro st
    unfold finishBatch
    by_cases ho : st.outputs.isEmpty = true
    · have hnil : st.outputs = [] := by simpa using ho
      simp [ho, hnil]
    · have hne : st.outputs ≠ [] := by simpa using ho
      simp [ho, hne]

/-- Witness for C7's amended cadence on a fresh six-candidate batch: a save
follows the sixth decision. -/
theorem c7_save_cadence_amended_witness :
    (∀ c ∈ batch6, simpleSuccess sampleParams c = true) ∧
    (periodicSaveFollowsNth (runBatch sampleParams batch6 emptyBatchState).trace 6 =
      true ↔ (6 ≤ batch6.length ∧ 5 % 5 = 0)) :=
  ⟨by decide, (c7_save_cadence_amended sampleParams batch6 (by decide)).1 5⟩

end GitRewrite
